import Mathlib

/-!
Shallow embedding of the session/team/billing slice of the SaaS starter
repository: the Stripe checkout reconciler (app/api/stripe/checkout/route.ts),
the form actions (app/(login)/actions.ts) and the query layer
(lib/db/queries.ts).  Supabase is modelled as an in-memory store of row
lists; each `.single()` / `.maybeSingle()` / `.limit(1).single()` call is
modelled by the corresponding list operation.  The auth/session module
(lib/auth/session) is not part of the sources, so its contract is modelled
from the spec where needed.
-/

namespace App

/-- A row of the `users` table.  Fields as used by the code:
id, name, email, passwordHash, role, deletedAt (nullable). -/
structure User where
  id : Int
  name : Option String
  email : String
  passwordHash : String
  role : String
  deletedAt : Option String
  deriving DecidableEq, Repr

/-- A row of the `teams` table with the billing columns the reconciler
overwrites. -/
structure Team where
  id : Int
  name : String
  stripeCustomerId : Option String
  stripeSubscriptionId : Option String
  stripeProductId : Option String
  planName : Option String
  subscriptionStatus : Option String
  updatedAt : Option String
  deriving DecidableEq, Repr

/-- A row of the `teamMembers` join table. -/
structure TeamMemberRow where
  id : Int
  userId : Int
  teamId : Int
  role : String
  deriving DecidableEq, Repr

/-- A row of the `invitations` table. -/
structure Invitation where
  id : Int
  teamId : Int
  email : String
  role : String
  invitedBy : Int
  status : String
  deriving DecidableEq, Repr

/-- The activity types used by the actions (lib/db/schema ActivityType). -/
inductive ActivityType where
  | SIGN_UP | SIGN_IN | SIGN_OUT | UPDATE_PASSWORD | DELETE_ACCOUNT
  | UPDATE_ACCOUNT | CREATE_TEAM | REMOVE_TEAM_MEMBER | INVITE_TEAM_MEMBER
  | ACCEPT_INVITATION
  deriving DecidableEq, Repr

/-- A row of the `activityLogs` table as inserted by `logActivity`
(the timestamp column is database-defaulted, not set by the code). -/
structure ActivityLog where
  teamId : Int
  userId : Int
  action : ActivityType
  ipAddress : String
  deriving DecidableEq, Repr

/-- The persistent store: the tables touched by this slice, plus the
id sequences the database would assign on insert. -/
structure Store where
  users : List User
  teams : List Team
  teamMembers : List TeamMemberRow
  invitations : List Invitation
  activityLogs : List ActivityLog
  nextUserId : Int
  nextTeamId : Int
  nextTeamMemberId : Int
  nextInvitationId : Int
  deriving DecidableEq, Repr

/-- `.single()`: data is returned only when the filter matched exactly one
row; zero rows or several rows give an error, i.e. no data. -/
def singleQ {α : Type} : List α → Option α
  | [a] => some a
  | _ => none

/-- `.limit(1).single()` (and `.limit(1).maybeSingle()`): the first matching
row if any; zero rows give an error / null, i.e. no data. -/
def limitSingle {α : Type} (l : List α) : Option α := l.head?

/-- `logActivity(teamId, userId, type)`: returns immediately when teamId is
null/undefined/0 (falsy); otherwise appends a log row with empty ipAddress. -/
def logActivity (st : Store) (teamId : Option Int) (userId : Int)
    (a : ActivityType) : Store :=
  match teamId with
  | none => st
  | some t =>
      if t = 0 then st
      else { st with activityLogs :=
               st.activityLogs ++ [⟨t, userId, a, ""⟩] }

/-! ### Stripe objects, as consumed by the checkout callback -/

/-- A Stripe product (only the fields the route reads). -/
structure Product where
  id : String
  name : String
  deriving DecidableEq, Repr

/-- A subscription item's price; `plan.product` is read after the code's
cast to a product object. -/
structure Price where
  product : Product
  deriving DecidableEq, Repr

/-- An element of `subscription.items.data`. -/
structure SubItem where
  price : Price
  deriving DecidableEq, Repr

/-- A Stripe subscription (only the fields the route reads). -/
structure Subscription where
  id : String
  items : List SubItem
  status : String
  deriving DecidableEq, Repr

/-- `session.customer`: null/undefined, a bare id string, or an expanded
customer object (of which only `.id` is read). -/
inductive CustomerVal where
  | nullC
  | strC (s : String)
  | objC (id : String)
  deriving DecidableEq, Repr

/-- `session.subscription`: null, a bare id string (to be retrieved), or an
expanded subscription object. -/
inductive SubscriptionVal where
  | nullS
  | strS (s : String)
  | objS (sub : Subscription)
  deriving DecidableEq, Repr

/-- A Stripe Checkout session as retrieved in step 1 of the callback. -/
structure CheckoutSession where
  customer : CustomerVal
  subscription : SubscriptionVal
  clientReferenceId : Option String
  deriving DecidableEq, Repr

/-- The external Stripe state: checkout sessions and subscriptions by id;
a failed retrieve throws, which the route's catch turns into the error
redirect. -/
structure StripeWorld where
  sessions : List (String × CheckoutSession)
  subs : List (String × Subscription)
  deriving DecidableEq, Repr

/-- Association-list lookup standing for a remote retrieve-by-id. -/
def lookupA {α : Type} (l : List (String × α)) (k : String) : Option α :=
  (l.find? (fun p => p.1 == k)).map (fun p => p.2)

/-- JavaScript integer-string parsing as needed by `Number(...)`:
optional sign followed by digits; empty/whitespace-only converts to 0;
anything else is NaN (`none`).  (Fractional/exponent forms are not used by
any claim and are not modelled.) -/
def digitsVal : List Char → Option Nat
  | [] => none
  | cs =>
      if cs.all Char.isDigit then
        some (cs.foldl (fun n c => n * 10 + (c.toNat - 48)) 0)
      else none

/-- Leading/trailing-whitespace removal on the character list (JS trims
the string before numeric conversion). -/
def trimChars (cs : List Char) : List Char :=
  ((cs.dropWhile Char.isWhitespace).reverse.dropWhile
    Char.isWhitespace).reverse

def parseJsNumber (s : String) : Option Int :=
  match trimChars s.toList with
  | [] => some 0
  | '-' :: rest => (digitsVal rest).map (fun n => -(n : Int))
  | '+' :: rest => (digitsVal rest).map (fun n => (n : Int))
  | cs => (digitsVal cs).map (fun n => (n : Int))

/-- `Number(session.client_reference_id)`: `Number(null) = 0`, a string is
parsed; `none` stands for NaN. -/
def jsNumberRef : Option String → Option Int
  | none => some 0
  | some s => parseJsNumber s

/-- Where the route handler redirects. -/
inductive Redirect where
  | pricing
  | error
  | dashboard
  deriving DecidableEq, Repr

/-- Outcome of the checkout callback: the store after the request, the
redirect, and the user a session cookie was issued for (step 6), if any. -/
structure ReconcileResult where
  store : Store
  redirect : Redirect
  sessionFor : Option Int
  deriving DecidableEq, Repr

/-- Step 5's update payload applied to one team row: full overwrite of the
billing columns plus a fresh `updatedAt`. -/
def applyTeamUpdate (custId subId prodId prodName status now : String)
    (t : Team) : Team :=
  { t with
    stripeCustomerId := some custId
    stripeSubscriptionId := some subId
    stripeProductId := some prodId
    planName := some prodName
    subscriptionStatus := some status
    updatedAt := some now }

/-- `session.subscription` resolution: a string id is retrieved from Stripe
(a failed retrieve throws, hence `none`); an object is used directly. -/
def resolveSub (w : StripeWorld) : SubscriptionVal → Option Subscription
  | .strS s => lookupA w.subs s
  | .objS sub => some sub
  | .nullS => none

/-- Steps 1-2 of the callback: retrieve and validate the checkout session
against the external Stripe state, in the source's order of checks
(customer object, subscription, first item's price, numeric nonzero
`client_reference_id`).  A `none` is a thrown error, caught by the handler.
This phase reads no local state. -/
def resolveCheckout (w : StripeWorld) (sid : String) :
    Option (String × Subscription × SubItem × Int) :=
  match lookupA w.sessions sid with
  | none => none
  | some cs =>
    match cs.customer with
    | .nullC => none
    | .strC _ => none
    | .objC custId =>
      match resolveSub w cs.subscription with
      | none => none
      | some sub =>
        match sub.items.head? with
        | none => none
        | some item =>
          match jsNumberRef cs.clientReferenceId with
          | none => none
          | some userId =>
            if userId = 0 then none
            else some (custId, sub, item, userId)

/-- `GET` of app/api/stripe/checkout/route.ts.  `param` is the `session_id`
query parameter; `now` is the ISO timestamp `new Date().toISOString()`.
Any thrown error is caught and turned into a redirect to `/error` with the
store untouched; a missing `session_id` redirects to `/pricing`.  Steps 3
and 4 are the `.single()` lookups of the user and of their membership; step
5 maps the full billing overwrite over the team row; step 6 issues the
session. -/
def GET (param : Option String) (w : StripeWorld) (st : Store)
    (now : String) : ReconcileResult :=
  match param with
  | none => ⟨st, .pricing, none⟩
  | some sid =>
    match resolveCheckout w sid with
    | none => ⟨st, .error, none⟩
    | some (custId, sub, item, userId) =>
      match singleQ (st.users.filter (fun u => u.id == userId)) with
      | none => ⟨st, .error, none⟩
      | some user =>
        match singleQ (st.teamMembers.filter
            (fun m => m.userId == user.id)) with
        | none => ⟨st, .error, none⟩
        | some membership =>
          ⟨{ st with teams := st.teams.map (fun t =>
              if t.id == membership.teamId then
                applyTeamUpdate custId sub.id item.price.product.id
                  item.price.product.name sub.status now t
              else t) },
            .dashboard, some user.id⟩

/-! ### Session layer (lib/auth/session is not among the sources) -/

/-- Modelled from the spec: lib/auth/session's `hashPassword` is not under
src/; §4.1 specifies a salted one-way hash.  The hash's internals are
irrelevant to every claim below; a tagged injection stands in for it. -/
def hashPassword (password : String) : String :=
  "bcrypt$" ++ password

/-- Modelled from the spec: lib/auth/session's `comparePasswords` is not
under src/; §4.1 requires `compare(p, hash(p)) = true` and mismatches to
fail. -/
def comparePasswords (plain digest : String) : Bool :=
  digest == hashPassword plain

/-- The decoded payload `{ user: { id }, expires }` carried by the session
cookie.  `user` may be absent and the `id` field may fail the
`typeof id === 'number'` check (`none`); `expires` is the parsed timestamp
compared against the current time. -/
structure TokenUser where
  id : Option Int
  deriving DecidableEq, Repr

structure SessionData where
  user : Option TokenUser
  expires : Int
  deriving DecidableEq, Repr

/-- Modelled from the spec: the signed cookie blob produced by
lib/auth/session (not under src/); §4.1: a payload plus a symmetric MAC
computed from a server-held secret. -/
structure SignedBlob where
  payload : SessionData
  mac : Nat
  deriving DecidableEq, Repr

/-- Modelled from the spec: the MAC of §4.1's signing scheme, any concrete
keyed function of the payload serves the embedding. -/
def macOf (secret : Nat) (p : SessionData) : Nat :=
  secret * 2 + p.expires.natAbs * 3 +
    (match p.user with
     | none => 0
     | some u => match u.id with
       | none => 1
       | some i => 2 + i.natAbs * 5)

/-- Modelled from the spec: lib/auth/session's `verifyToken` (not under
src/); §4.1 `verify`: on signature mismatch or malformed payload it yields
absent, never an exception; on a valid signature it yields the decoded
payload (expiry is checked by the caller). -/
def verifyToken (secret : Nat) (blob : SignedBlob) : Option SessionData :=
  if blob.mac = macOf secret blob.payload then some blob.payload else none

/-- `getUser` of lib/db/queries.ts.  `cookie` is the `session` cookie
(absent or empty value gives `none`); `now` the current time.  Returns the
current, non-soft-deleted user row only when every check passes. -/
def getUser (secret : Nat) (cookie : Option SignedBlob) (now : Int)
    (st : Store) : Option User :=
  match cookie with
  | none => none
  | some blob =>
    match verifyToken secret blob with
    | none => none
    | some sd =>
      match sd.user with
      | none => none
      | some tu =>
        match tu.id with
        | none => none
        | some uid =>
          if sd.expires < now then none
          else singleQ (st.users.filter
                 (fun u => u.id == uid && u.deletedAt.isNone))

/-- `getUserWithTeam` of lib/db/queries.ts: the user row fetched with
`.maybeSingle()`, then the first team membership with
`.limit(1).maybeSingle()`; the returned `teamId` is that membership's team
or null. -/
def getUserWithTeam (st : Store) (userId : Int) :
    Option (User × Option Int) :=
  match singleQ (st.users.filter (fun u => u.id == userId)) with
  | none => none
  | some u =>
      some (u, (limitSingle (st.teamMembers.filter
               (fun m => m.userId == userId))).map (fun m => m.teamId))

/-! ### Form actions (app/(login)/actions.ts) -/

/-- What an action hands back: an error object (sign-up errors echo the
submitted email and password), a success message, or a redirect. -/
inductive ActionResult where
  | errEP (msg email password : String)
  | err (msg : String)
  | ok (msg : String)
  | redirectTo (path : String)
  deriving DecidableEq, Repr

/-- An action's outcome: the store afterwards, the returned value, the user
a session was issued for (`setSession`), and whether the session cookie was
cleared. -/
structure ActionOut where
  store : Store
  res : ActionResult
  sessionFor : Option Int
  cookieCleared : Bool
  deriving DecidableEq, Repr

/-- The tail shared by both sign-up branches (actions.ts lines 190-203,
non-checkout path): insert the teamMembers row, log SIGN_UP, set the
session, redirect to the dashboard. -/
def signUpFinish (st : Store) (u : User) (teamId : Int) (role : String) :
    ActionOut :=
  let st1 := { st with
    teamMembers := st.teamMembers ++
      [⟨st.nextTeamMemberId, u.id, teamId, role⟩]
    nextTeamMemberId := st.nextTeamMemberId + 1 }
  let st2 := logActivity st1 (some teamId) u.id ActivityType.SIGN_UP
  ⟨st2, .redirectTo "/dashboard", some u.id, false⟩

/-- `signUp` of actions.ts (the non-checkout path; `inviteId` is the parsed
`parseInt(inviteId)` value when the optional field was supplied).
Order as in the source: duplicate-email check (`.limit(1).single()`, no
soft-delete filter), then the user insert, then either the invitation
branch or the create-team branch, then the shared tail. -/
def signUp (st : Store) (email password : String) (inviteId : Option Int) :
    ActionOut :=
  match limitSingle (st.users.filter (fun u => u.email == email)) with
  | some _ => ⟨st, .errEP "Email already in use." email password, none, false⟩
  | none =>
    let passwordHash := hashPassword password
    let createdUser : User :=
      ⟨st.nextUserId, none, email, passwordHash, "owner", none⟩
    let st1 := { st with
      users := st.users ++ [createdUser]
      nextUserId := st.nextUserId + 1 }
    match inviteId with
    | some inv =>
      match limitSingle (st1.invitations.filter (fun i =>
          i.id == inv && i.email == email && i.status == "pending")) with
      | none =>
          ⟨st1, .errEP "Invalid or expired invitation." email password,
            none, false⟩
      | some invite =>
          let st2 := { st1 with invitations := st1.invitations.map (fun i =>
            if i.id == invite.id then { i with status := "accepted" }
            else i) }
          let st3 := logActivity st2 (some invite.teamId) createdUser.id
            ActivityType.ACCEPT_INVITATION
          signUpFinish st3 createdUser invite.teamId invite.role
    | none =>
      let newTeam : Team :=
        ⟨st1.nextTeamId, email ++ "'s Team",
          none, none, none, none, none, none⟩
      let st2 := { st1 with
        teams := st1.teams ++ [newTeam]
        nextTeamId := st1.nextTeamId + 1 }
      let st3 := logActivity st2 (some newTeam.id) createdUser.id
        ActivityType.CREATE_TEAM
      signUpFinish st3 createdUser newTeam.id "owner"

/-- `deleteAccount` of actions.ts: password check, DELETE_ACCOUNT log,
soft-delete of the user row (deletedAt set and the email rewritten to
`<email>-<id>-deleted`), removal of the caller's membership when they have
a team, cookie cleared, redirect to sign-in.  `user` is the authenticated
caller's row, `now` the ISO timestamp. -/
def deleteAccount (st : Store) (user : User) (password : String)
    (now : String) : ActionOut :=
  if comparePasswords password user.passwordHash then
    let uwt := getUserWithTeam st user.id
    let teamId := uwt.bind (fun p => p.2)
    let st1 := logActivity st teamId user.id ActivityType.DELETE_ACCOUNT
    let st2 := { st1 with users := st1.users.map (fun u =>
      if u.id == user.id then
        { u with
          deletedAt := some now
          email := user.email ++ "-" ++ toString user.id ++ "-deleted" }
      else u) }
    let st3 :=
      match teamId with
      | some tid =>
          if tid = 0 then st2
          else { st2 with teamMembers := st2.teamMembers.filter (fun m =>
                   !(m.userId == user.id && m.teamId == tid)) }
      | none => st2
    ⟨st3, .redirectTo "/sign-in", none, true⟩
  else ⟨st, .err "Incorrect password.", none, false⟩

/-- The `!uwt?.teamId` guard of the team actions: a missing lookup result,
a null teamId and the (unassignable) id 0 are all falsy. -/
def callerTeamId (st : Store) (userId : Int) : Option Int :=
  match (getUserWithTeam st userId).bind (fun p => p.2) with
  | some t => if t = 0 then none else some t
  | none => none

/-- `removeTeamMember` of actions.ts: the delete is filtered by both the
submitted memberId and the caller's own teamId; a caller without a team is
rejected before any delete. -/
def removeTeamMember (st : Store) (user : User) (memberId : Int) :
    ActionOut :=
  match callerTeamId st user.id with
  | none => ⟨st, .err "Not part of a team.", none, false⟩
  | some tid =>
      let st1 := { st with teamMembers := st.teamMembers.filter (fun m =>
        !(m.id == memberId && m.teamId == tid)) }
      let st2 := logActivity st1 (some tid) user.id
        ActivityType.REMOVE_TEAM_MEMBER
      ⟨st2, .ok "Team member removed.", none, false⟩

/-- `inviteTeamMember` of actions.ts.  Note the existing-membership check
filters teamMembers by the caller's own userId and teamId (`.single()`). -/
def inviteTeamMember (st : Store) (user : User) (email role : String) :
    ActionOut :=
  match callerTeamId st user.id with
  | none => ⟨st, .err "Not part of a team.", none, false⟩
  | some tid =>
    match singleQ (st.teamMembers.filter (fun m =>
        m.teamId == tid && m.userId == user.id)) with
    | some _ => ⟨st, .err "User already a member.", none, false⟩
    | none =>
      match singleQ (st.invitations.filter (fun i =>
          i.teamId == tid && i.email == email && i.status == "pending")) with
      | some _ => ⟨st, .err "Invitation already sent.", none, false⟩
      | none =>
        let st1 := { st with
          invitations := st.invitations ++
            [⟨st.nextInvitationId, tid, email, role, user.id, "pending"⟩]
          nextInvitationId := st.nextInvitationId + 1 }
        let st2 := logActivity st1 (some tid) user.id
          ActivityType.INVITE_TEAM_MEMBER
        ⟨st2, .ok "Invitation sent.", none, false⟩

/-! ### Concrete fixtures used to exercise the definitions -/

def exUser : User := ⟨1, none, "a@x.com", "bcrypt$password123", "owner", none⟩

def exDeletedUser : User :=
  ⟨1, none, "gone@x.com", "bcrypt$password123", "owner", some "2025-05-01"⟩

def exTeam : Team := ⟨7, "A Team", none, none, none, none, none, none⟩

def exMember : TeamMemberRow := ⟨1, 1, 7, "owner"⟩

def exSub : Subscription := ⟨"sub_1", [⟨⟨⟨"prod_1", "Pro"⟩⟩⟩], "active"⟩

def exSession : CheckoutSession := ⟨.objC "cus_1", .objS exSub, some "1"⟩

def exSessionNoRef : CheckoutSession := ⟨.objC "cus_1", .objS exSub, none⟩

def exWorld : StripeWorld :=
  ⟨[("cs_1", exSession), ("cs_2", exSessionNoRef)], []⟩

/-- A store whose only user is soft-deleted but still has a membership. -/
def exStoreDeleted : Store :=
  ⟨[exDeletedUser], [exTeam], [exMember], [], [], 2, 8, 2, 1⟩

/-- A store whose only user has no team membership. -/
def exStoreNoTeam : Store :=
  ⟨[exUser], [exTeam], [], [], [], 2, 8, 2, 1⟩

/-- An empty store with all id sequences at 1. -/
def exStoreEmpty : Store := ⟨[], [], [], [], [], 1, 1, 1, 1⟩

/-- A store whose only user belongs to team 7. -/
def exStoreMember : Store :=
  ⟨[exUser], [exTeam], [exMember], [], [], 2, 8, 2, 1⟩

/-- A membership row of an unrelated team. -/
def exMemberOther : TeamMemberRow := ⟨2, 5, 9, "member"⟩

/-- A store holding memberships of two different teams. -/
def exStoreTwoTeams : Store :=
  ⟨[exUser], [exTeam], [exMember, exMemberOther], [], [], 2, 8, 3, 1⟩

/-- A well-formed session payload for user 1 expiring at time 100. -/
def exPayload : SessionData := ⟨some ⟨some 1⟩, 100⟩

def exGoodBlob : SignedBlob := ⟨exPayload, macOf 5 exPayload⟩

def exBadBlob : SignedBlob := ⟨exPayload, macOf 5 exPayload + 1⟩

end App

namespace App

/-! ### Shared lemmas -/

theorem singleQ_eq_some {α : Type} {l : List α} {a : α} :
    singleQ l = some a → l = [a] := by
  intro h
  match l with
  | [] => simp [singleQ] at h
  | [b] => simp [singleQ] at h; simp [h]
  | _ :: _ :: _ => simp [singleQ] at h

theorem filter_eq_nil_of {α : Type} (p : α → Bool) (l : List α)
    (h : ∀ a ∈ l, p a = false) : l.filter p = [] := by
  induction l with
  | nil => rfl
  | cons a t ih =>
      have ha := h a (List.mem_cons_self a t)
      have ht : t.filter p = [] :=
        ih (fun b hb => h b (List.mem_cons_of_mem a hb))
      simp [List.filter, ha, ht]

theorem map_fixpoint {α : Type} (g : α → α) (h : ∀ a, g (g a) = g a)
    (l : List α) : (l.map g).map g = l.map g := by
  induction l with
  | nil => rfl
  | cons a t ih => simp only [List.map_cons, h a, ih]

theorem teamUpd_idem (cI sI pI pN ss now : String) (tid : Int) (t : Team) :
    (fun t => if t.id == tid then applyTeamUpdate cI sI pI pN ss now t
              else t)
      ((fun t => if t.id == tid then applyTeamUpdate cI sI pI pN ss now t
                 else t) t)
    = (fun t => if t.id == tid then applyTeamUpdate cI sI pI pN ss now t
                else t) t := by
  by_cases h : t.id == tid
  · simp [h, applyTeamUpdate]
  · simp [h]

theorem resolveCheckout_ref_of_some {w : StripeWorld} {sid : String}
    {cs : CheckoutSession} {c : String} {sub : Subscription} {item : SubItem}
    {uid : Int} (h : lookupA w.sessions sid = some cs)
    (hr : resolveCheckout w sid = some (c, sub, item, uid)) :
    jsNumberRef cs.clientReferenceId = some uid := by
  unfold resolveCheckout at hr
  rw [h] at hr
  dsimp only at hr
  cases hc : cs.customer with
  | nullC => rw [hc] at hr; simp at hr
  | strC s => rw [hc] at hr; simp at hr
  | objC cid =>
    rw [hc] at hr
    dsimp only at hr
    cases hsb : resolveSub w cs.subscription with
    | none => rw [hsb] at hr; simp at hr
    | some sub' =>
      rw [hsb] at hr
      dsimp only at hr
      cases hh : sub'.items.head? with
      | none => rw [hh] at hr; simp at hr
      | some item' =>
        rw [hh] at hr
        dsimp only at hr
        cases hj : jsNumberRef cs.clientReferenceId with
        | none => rw [hj] at hr; simp at hr
        | some v =>
          rw [hj] at hr
          dsimp only at hr
          by_cases hv : v = 0
          · simp [hv] at hr
          · simp [hv] at hr
            rw [hr.2.2.2]

theorem logActivity_shape (st : Store) (t : Option Int) (uid : Int)
    (a : ActivityType) :
    ∃ logs, logActivity st t uid a = { st with activityLogs := logs } := by
  unfold logActivity
  cases t with
  | none => exact ⟨st.activityLogs, rfl⟩
  | some v =>
    by_cases h : v = 0
    · simp only [h, if_pos]
      exact ⟨st.activityLogs, rfl⟩
    · simp only [h, if_neg, not_false_iff]
      exact ⟨st.activityLogs ++ [⟨v, uid, a, ""⟩], rfl⟩

/-- The full outcome of a sign-up with a fresh email and no invite. -/
theorem signUp_fresh_eq (st : Store) (email password : String)
    (hfresh : st.users.filter (fun u => u.email == email) = [])
    (htid : st.nextTeamId ≠ 0) :
    signUp st email password none =
      ⟨{ st with
          users := st.users ++
            [⟨st.nextUserId, none, email, hashPassword password, "owner",
              none⟩]
          nextUserId := st.nextUserId + 1
          teams := st.teams ++
            [⟨st.nextTeamId, email ++ "'s Team", none, none, none, none,
              none, none⟩]
          nextTeamId := st.nextTeamId + 1
          teamMembers := st.teamMembers ++
            [⟨st.nextTeamMemberId, st.nextUserId, st.nextTeamId, "owner"⟩]
          nextTeamMemberId := st.nextTeamMemberId + 1
          activityLogs := st.activityLogs ++
            [⟨st.nextTeamId, st.nextUserId, ActivityType.CREATE_TEAM, ""⟩,
             ⟨st.nextTeamId, st.nextUserId, ActivityType.SIGN_UP, ""⟩] },
        .redirectTo "/dashboard", some st.nextUserId, false⟩ := by
  simp [signUp, signUpFinish, logActivity, hfresh, limitSingle, htid]

/-- A string strictly grows when the deleted-account suffix is appended. -/
theorem deletedEmail_ne (e : String) (i : Int) :
    e ++ "-" ++ toString i ++ "-deleted" ≠ e := by
  intro he
  have h2 := congrArg String.length he
  rw [String.length_append, String.length_append, String.length_append]
    at h2
  have h1 : "-".length = 1 := rfl
  have h8 : "-deleted".length = 8 := rfl
  omega

/-- The effect of a (password-checked) account deletion on the store:
a sign-in redirect with the cookie cleared, the user rows with the
caller's id soft-deleted and renamed, and the id sequences untouched. -/
theorem deleteAccount_shape (st : Store) (u : User) (pw now : String)
    (hpw : comparePasswords pw u.passwordHash = true) :
    ∃ st', deleteAccount st u pw now =
        ⟨st', .redirectTo "/sign-in", none, true⟩ ∧
      st'.users = st.users.map (fun r =>
        if r.id == u.id then
          { r with
            deletedAt := some now
            email := u.email ++ "-" ++ toString u.id ++ "-deleted" }
        else r) ∧
      st'.nextUserId = st.nextUserId ∧
      st'.nextTeamId = st.nextTeamId ∧
      st'.nextTeamMemberId = st.nextTeamMemberId := by
  unfold deleteAccount
  rw [hpw]
  simp only [if_true]
  obtain ⟨logs, hla⟩ := logActivity_shape st
    ((getUserWithTeam st u.id).bind (fun p => p.2)) u.id
    ActivityType.DELETE_ACCOUNT
  rw [hla]
  cases htid : (getUserWithTeam st u.id).bind (fun p => p.2) with
  | none => exact ⟨_, rfl, rfl, rfl, rfl, rfl⟩
  | some tid =>
    by_cases h0 : tid = 0
    · simp only [h0, if_pos]
      exact ⟨_, rfl, rfl, rfl, rfl, rfl⟩
    · simp only [h0, if_neg, not_false_iff]
      exact ⟨_, rfl, rfl, rfl, rfl, rfl⟩

/-! ### Claim theorems -/

/-- C1: a payment callback whose retrieved checkout session has a
`client_reference_id` that is missing (`Number(null) = 0`) or does not
convert to a nonzero number aborts before step 5: the store is untouched
and the handler redirects to the generic error destination with no session
issued. -/
theorem checkout_missing_ref_aborts (w : StripeWorld) (sid : String)
    (cs : CheckoutSession) (st : Store) (now : String)
    (h : lookupA w.sessions sid = some cs)
    (hbad : jsNumberRef cs.clientReferenceId = none ∨
            jsNumberRef cs.clientReferenceId = some 0) :
    GET (some sid) w st now = ⟨st, .error, none⟩ := by
  have hrc : resolveCheckout w sid = none := by
    unfold resolveCheckout
    rw [h]
    dsimp only
    cases cs.customer with
    | nullC => rfl
    | strC s => rfl
    | objC cid =>
      dsimp only
      cases resolveSub w cs.subscription with
      | none => rfl
      | some sub =>
        dsimp only
        cases sub.items.head? with
        | none => rfl
        | some item =>
          dsimp only
          rcases hbad with hb | hb
          · rw [hb]
          · rw [hb]; simp
  simp [GET, hrc]

theorem checkout_missing_ref_aborts_witness :
    lookupA exWorld.sessions "cs_2" = some exSessionNoRef ∧
    GET (some "cs_2") exWorld exStoreNoTeam "T" =
      ⟨exStoreNoTeam, .error, none⟩ :=
  ⟨by decide,
   checkout_missing_ref_aborts exWorld "cs_2" exSessionNoRef exStoreNoTeam
     "T" (by decide) (Or.inr rfl)⟩

/-- C5: a callback whose correlation id resolves to an existing (unique)
user row that has no team-membership row aborts before step 5: no team row
is updated, no session is issued, and the handler redirects to the generic
error destination. -/
theorem checkout_no_team_aborts (w : StripeWorld) (sid : String)
    (cs : CheckoutSession) (st : Store) (now : String) (uid : Int) (u : User)
    (h : lookupA w.sessions sid = some cs)
    (href : jsNumberRef cs.clientReferenceId = some uid)
    (hu : st.users.filter (fun r => r.id == uid) = [u])
    (hm : st.teamMembers.filter (fun m => m.userId == u.id) = []) :
    GET (some sid) w st now = ⟨st, .error, none⟩ := by
  cases hrc : resolveCheckout w sid with
  | none => simp [GET, hrc]
  | some q =>
    obtain ⟨c, sub, item, uid'⟩ := q
    have : jsNumberRef cs.clientReferenceId = some uid' :=
      resolveCheckout_ref_of_some h hrc
    rw [href] at this
    have huid : uid' = uid := (Option.some.inj this).symm
    subst huid
    simp [GET, hrc, hu, hm, singleQ]

theorem checkout_no_team_aborts_witness :
    lookupA exWorld.sessions "cs_1" = some exSession ∧
    GET (some "cs_1") exWorld exStoreNoTeam "T" =
      ⟨exStoreNoTeam, .error, none⟩ :=
  ⟨by decide,
   checkout_no_team_aborts exWorld "cs_1" exSession exStoreNoTeam "T" 1
     exUser (by decide) (by decide) (by decide) (by decide)⟩

/-- C6: re-running the reconciler on the store it produced, with the same
callback input, yields the identical outcome — in particular the team row
is in the same final state after the second run as after the first, the
step-5 update being an idempotent full overwrite. -/
theorem checkout_reconcile_idempotent (p : Option String) (w : StripeWorld)
    (st : Store) (now : String) :
    GET p w (GET p w st now).store now = GET p w st now := by
  cases p with
  | none => rfl
  | some sid =>
    cases hrc : resolveCheckout w sid with
    | none => simp [GET, hrc]
    | some q =>
      obtain ⟨c, sub, item, uid⟩ := q
      cases hu : singleQ (st.users.filter (fun r => r.id == uid)) with
      | none => simp [GET, hrc, hu]
      | some user =>
        cases hm : singleQ (st.teamMembers.filter
            (fun m => m.userId == user.id)) with
        | none => simp [GET, hrc, hu, hm]
        | some mem =>
          simp only [GET, hrc, hu, hm]
          simp only [ReconcileResult.mk.injEq, Store.mk.injEq, and_true,
            true_and]
          exact map_fixpoint _ (teamUpd_idem c sub.id item.price.product.id
            item.price.product.name sub.status now mem.teamId) st.teams

/-- C2 counterexample: the claim asserts the step-3 user lookup excludes
soft-deleted users, so a callback whose correlation id refers to a user row
with `deletedAt` set would fail and leave all team rows untouched; on a
concrete store whose only user is soft-deleted (and still has a
membership), the reconciler instead succeeds and rewrites the team row. -/
theorem checkout_soft_deleted_proceeds_cex :
    (GET (some "cs_1") exWorld exStoreDeleted "T").redirect =
      Redirect.dashboard ∧
    (GET (some "cs_1") exWorld exStoreDeleted "T").store.teams ≠
      exStoreDeleted.teams := by
  constructor
  · rfl
  · decide

/-- C2 amended: the step-3 lookup filters by id only and does not exclude
soft-deleted users: a callback whose correlation id resolves to a user row
with `deletedAt` set, when that user (uniquely) has a team membership,
proceeds to step 5, overwrites the team row's billing fields and issues a
session for the soft-deleted user. -/
theorem checkout_user_lookup_ignores_deletedAt (w : StripeWorld)
    (sid : String) (st : Store) (now : String) (c : String)
    (sub : Subscription) (item : SubItem) (uid : Int) (u : User) (d : String)
    (mem : TeamMemberRow)
    (hr : resolveCheckout w sid = some (c, sub, item, uid))
    (hu : st.users.filter (fun r => r.id == uid) = [u])
    (_hdel : u.deletedAt = some d)
    (hm : st.teamMembers.filter (fun m => m.userId == u.id) = [mem]) :
    GET (some sid) w st now =
      ⟨{ st with teams := st.teams.map (fun t =>
          if t.id == mem.teamId then
            applyTeamUpdate c sub.id item.price.product.id
              item.price.product.name sub.status now t
          else t) },
        .dashboard, some u.id⟩ := by
  simp [GET, hr, hu, hm, singleQ]

/-- C3 counterexample: the claim asserts that a sign-up with an invalid
invitation leaves the store otherwise unchanged, in particular that no new
user row persists; on an empty store with one already-accepted invitation,
the sign-up returns the expected error but the user row inserted before the
invitation check persists. -/
theorem signUp_invalid_invite_partial_write_cex :
    (signUp exStoreEmpty "b@x.com" "password123" (some 1)).res =
      ActionResult.errEP "Invalid or expired invitation." "b@x.com"
        "password123" ∧
    (signUp exStoreEmpty "b@x.com" "password123" (some 1)).store.users ≠
      exStoreEmpty.users := by
  constructor
  · rfl
  · decide

/-- C3 amended: a sign-up carrying an inviteId whose invitation row is not
pending or whose email does not match returns the error
"Invalid or expired invitation.", creates no team membership row, no team,
no invitation change, no activity log and no session — but the user row
inserted before the invitation check persists (one partial write). -/
theorem signUp_invalid_invite_aborts (st : Store) (email password : String)
    (inv : Int)
    (hfresh : ∀ u ∈ st.users, u.email ≠ email)
    (hinv : ∀ i ∈ st.invitations, i.id = inv →
            i.status ≠ "pending" ∨ i.email ≠ email) :
    signUp st email password (some inv) =
      ⟨{ st with
          users := st.users ++
            [⟨st.nextUserId, none, email, hashPassword password, "owner",
              none⟩]
          nextUserId := st.nextUserId + 1 },
        .errEP "Invalid or expired invitation." email password,
        none, false⟩ := by
  have hfe : st.users.filter (fun u => u.email == email) = [] := by
    apply filter_eq_nil_of
    intro u hu
    simp [hfresh u hu]
  have hfi : st.invitations.filter (fun i =>
      i.id == inv && i.email == email && i.status == "pending") = [] := by
    apply filter_eq_nil_of
    intro i hi
    by_cases hid : i.id = inv
    · rcases hinv i hi hid with h2 | h2 <;> simp [hid, h2]
    · simp [hid]
  simp [signUp, hfe, hfi, limitSingle]

theorem signUp_invalid_invite_aborts_witness :
    (∀ u ∈ exStoreEmpty.users, u.email ≠ "b@x.com") ∧
    signUp exStoreEmpty "b@x.com" "password123" (some 1) =
      ⟨{ exStoreEmpty with
          users := [⟨1, none, "b@x.com", hashPassword "password123",
            "owner", none⟩]
          nextUserId := 2 },
        .errEP "Invalid or expired invitation." "b@x.com" "password123",
        none, false⟩ :=
  ⟨by decide,
   signUp_invalid_invite_aborts exStoreEmpty "b@x.com" "password123" 1
     (by decide) (by decide)⟩

/-- C8: (a) a sign-up whose email equals that of an existing non-deleted
user row returns "Email already in use." and writes nothing; (b) after an
account deletion — which rewrites the deleted row's email by appending the
user id and "-deleted" — a sign-up with the original email passes the
duplicate check and succeeds, creating a fresh user row with that email. -/
theorem signUp_email_uniqueness :
    (∀ (st : Store) (email password : String) (inviteId : Option Int)
        (u : User), u ∈ st.users → u.email = email → u.deletedAt = none →
        signUp st email password inviteId =
          ⟨st, .errEP "Email already in use." email password,
            none, false⟩) ∧
    (∀ (st : Store) (u : User) (pw now pw2 : String),
        comparePasswords pw u.passwordHash = true →
        (∀ r ∈ st.users, r.email = u.email → r.id = u.id) →
        st.nextTeamId ≠ 0 →
        (signUp (deleteAccount st u pw now).store u.email pw2 none).res =
          .redirectTo "/dashboard" ∧
        (signUp (deleteAccount st u pw now).store u.email pw2
            none).store.users =
          (deleteAccount st u pw now).store.users ++
            [⟨(deleteAccount st u pw now).store.nextUserId, none, u.email,
              hashPassword pw2, "owner", none⟩]) := by
  constructor
  · intro st email password inviteId u hu he _hd
    have hmem : u ∈ st.users.filter (fun r => r.email == email) :=
      List.mem_filter.mpr ⟨hu, by simp [he]⟩
    cases hf : st.users.filter (fun r => r.email == email) with
    | nil => rw [hf] at hmem; exact absurd hmem (List.not_mem_nil u)
    | cons a t => simp [signUp, hf, limitSingle]
  · intro st u pw now pw2 hpw huniq htid
    obtain ⟨st', hd, hu', _hn1, hn2, _hn3⟩ :=
      deleteAccount_shape st u pw now hpw
    rw [hd]
    dsimp only
    have hfresh : st'.users.filter (fun r => r.email == u.email) = [] := by
      rw [hu']
      apply filter_eq_nil_of
      intro a ha
      obtain ⟨r, hr, rfl⟩ := List.mem_map.mp ha
      by_cases hid : r.id == u.id
      · simp [hid, deletedEmail_ne u.email u.id]
      · have hne : r.email ≠ u.email := by
          intro hh
          exact hid (by simp [huniq r hr hh])
        simp [hid, hne]
    have hs := signUp_fresh_eq st' u.email pw2 hfresh (hn2 ▸ htid)
    rw [hs]
    exact ⟨rfl, rfl⟩

theorem signUp_email_uniqueness_witness :
    (exUser ∈ exStoreNoTeam.users ∧ exUser.email = "a@x.com" ∧
      exUser.deletedAt = none ∧
      signUp exStoreNoTeam "a@x.com" "pw2pw2pw2" none =
        ⟨exStoreNoTeam,
          .errEP "Email already in use." "a@x.com" "pw2pw2pw2",
          none, false⟩) ∧
    (signUp (deleteAccount exStoreNoTeam exUser "password123" "T").store
        "a@x.com" "newpass123" none).res = .redirectTo "/dashboard" :=
  ⟨⟨by decide, rfl, rfl,
    signUp_email_uniqueness.1 exStoreNoTeam "a@x.com" "pw2pw2pw2" none
      exUser (by decide) rfl rfl⟩,
   (signUp_email_uniqueness.2 exStoreNoTeam exUser "password123" "T"
      "newpass123" (by decide) (by decide) (by decide)).1⟩

/-- C7: a sign-up with a fresh email and no invite creates the user with
role owner, a team named `<email>'s Team`, an owner membership linking the
two, logs CREATE_TEAM and then SIGN_UP in that order, issues a session for
the new user and redirects to the dashboard. -/
theorem signUp_fresh_email_creates_team (st : Store)
    (email password : String)
    (hfresh : ∀ u ∈ st.users, u.email ≠ email)
    (htid : st.nextTeamId ≠ 0) :
    signUp st email password none =
      ⟨{ st with
          users := st.users ++
            [⟨st.nextUserId, none, email, hashPassword password, "owner",
              none⟩]
          nextUserId := st.nextUserId + 1
          teams := st.teams ++
            [⟨st.nextTeamId, email ++ "'s Team", none, none, none, none,
              none, none⟩]
          nextTeamId := st.nextTeamId + 1
          teamMembers := st.teamMembers ++
            [⟨st.nextTeamMemberId, st.nextUserId, st.nextTeamId, "owner"⟩]
          nextTeamMemberId := st.nextTeamMemberId + 1
          activityLogs := st.activityLogs ++
            [⟨st.nextTeamId, st.nextUserId, ActivityType.CREATE_TEAM, ""⟩,
             ⟨st.nextTeamId, st.nextUserId, ActivityType.SIGN_UP, ""⟩] },
        .redirectTo "/dashboard", some st.nextUserId, false⟩ := by
  apply signUp_fresh_eq
  · apply filter_eq_nil_of
    intro u hu
    simp [hfresh u hu]
  · exact htid

theorem signUp_fresh_email_creates_team_witness :
    (∀ u ∈ exStoreEmpty.users, u.email ≠ "a@x.com") ∧
    signUp exStoreEmpty "a@x.com" "password123" none =
      ⟨⟨[⟨1, none, "a@x.com", hashPassword "password123", "owner", none⟩],
         [⟨1, "a@x.com's Team", none, none, none, none, none, none⟩],
         [⟨1, 1, 1, "owner"⟩],
         [],
         [⟨1, 1, ActivityType.CREATE_TEAM, ""⟩,
          ⟨1, 1, ActivityType.SIGN_UP, ""⟩],
         2, 2, 2, 1⟩,
        .redirectTo "/dashboard", some 1, false⟩ := by
  constructor
  · decide
  · rw [signUp_fresh_email_creates_team exStoreEmpty "a@x.com" "password123"
      (by decide) (by decide)]
    decide

theorem checkout_user_lookup_ignores_deletedAt_witness :
    resolveCheckout exWorld "cs_1" =
      some ("cus_1", exSub, ⟨⟨⟨"prod_1", "Pro"⟩⟩⟩, 1) ∧
    GET (some "cs_1") exWorld exStoreDeleted "T" =
      ⟨{ exStoreDeleted with teams := exStoreDeleted.teams.map (fun t =>
          if t.id == exMember.teamId then
            applyTeamUpdate "cus_1" exSub.id "prod_1" "Pro" exSub.status "T" t
          else t) },
        .dashboard, some exDeletedUser.id⟩ :=
  ⟨by decide,
   checkout_user_lookup_ignores_deletedAt exWorld "cs_1" exStoreDeleted "T"
     "cus_1" exSub ⟨⟨⟨"prod_1", "Pro"⟩⟩⟩ 1 exDeletedUser "2025-05-01"
     exMember (by decide) (by decide) (by decide) (by decide)⟩

/-- C4: getUser yields no user (and no exception — it is a total function
into Option) whenever the cookie blob is missing, the signature fails
verification, the payload lacks a user with a numeric id, or the embedded
expiry is in the past; and whenever it does return a row, every one of
those checks passed and the row is a present, non-soft-deleted user with
the embedded id. -/
theorem getUser_session_checks (secret : Nat) (cookie : Option SignedBlob)
    (now : Int) (st : Store) :
    (cookie = none → getUser secret cookie now st = none) ∧
    (∀ b, cookie = some b → verifyToken secret b = none →
        getUser secret cookie now st = none) ∧
    (∀ b sd, cookie = some b → verifyToken secret b = some sd →
        sd.user = none → getUser secret cookie now st = none) ∧
    (∀ b sd tu, cookie = some b → verifyToken secret b = some sd →
        sd.user = some tu → tu.id = none →
        getUser secret cookie now st = none) ∧
    (∀ b sd tu uid, cookie = some b → verifyToken secret b = some sd →
        sd.user = some tu → tu.id = some uid → sd.expires < now →
        getUser secret cookie now st = none) ∧
    (∀ u, getUser secret cookie now st = some u →
        ∃ b sd tu uid, cookie = some b ∧ verifyToken secret b = some sd ∧
          sd.user = some tu ∧ tu.id = some uid ∧ ¬ sd.expires < now ∧
          u ∈ st.users ∧ u.deletedAt = none ∧ u.id = uid) := by
  refine ⟨?_, ?_, ?_, ?_, ?_, ?_⟩
  · intro h; subst h; rfl
  · intro b hb hv; subst hb; simp [getUser, hv]
  · intro b sd hb hv hsu; subst hb; simp [getUser, hv, hsu]
  · intro b sd tu hb hv hsu hid; subst hb; simp [getUser, hv, hsu, hid]
  · intro b sd tu uid hb hv hsu hid hexp; subst hb
    simp [getUser, hv, hsu, hid, hexp]
  · intro u hg
    cases hc : cookie with
    | none => rw [hc] at hg; simp [getUser] at hg
    | some b =>
      rw [hc] at hg
      unfold getUser at hg
      dsimp only at hg
      cases hv : verifyToken secret b with
      | none => rw [hv] at hg; simp at hg
      | some sd =>
        rw [hv] at hg
        dsimp only at hg
        cases hsu : sd.user with
        | none => rw [hsu] at hg; simp at hg
        | some tu =>
          rw [hsu] at hg
          dsimp only at hg
          cases hid : tu.id with
          | none => rw [hid] at hg; simp at hg
          | some uid =>
            rw [hid] at hg
            dsimp only at hg
            by_cases hexp : sd.expires < now
            · simp [hexp] at hg
            · rw [if_neg hexp] at hg
              have hfil := singleQ_eq_some hg
              have hmem : u ∈ st.users.filter
                  (fun r => r.id == uid && r.deletedAt.isNone) := by
                rw [hfil]; exact List.mem_singleton.mpr rfl
              obtain ⟨hin, hp⟩ := List.mem_filter.mp hmem
              have hp' := hp
              simp only [Bool.and_eq_true, beq_iff_eq,
                Option.isNone_iff_eq_none] at hp'
              exact ⟨b, sd, tu, uid, rfl, hv, hsu, hid, hexp, hin,
                hp'.2, hp'.1⟩

theorem getUser_session_checks_witness :
    getUser 5 none 50 exStoreMember = none ∧
    getUser 5 (some exBadBlob) 50 exStoreMember = none ∧
    getUser 5 (some exGoodBlob) 200 exStoreMember = none ∧
    (∃ b sd tu uid, some exGoodBlob = some b ∧
        verifyToken 5 b = some sd ∧ sd.user = some tu ∧ tu.id = some uid ∧
        ¬ sd.expires < (50 : Int) ∧ exUser ∈ exStoreMember.users ∧
        exUser.deletedAt = none ∧ exUser.id = uid) :=
  ⟨(getUser_session_checks 5 none 50 exStoreMember).1 rfl,
   (getUser_session_checks 5 (some exBadBlob) 50 exStoreMember).2.1
     exBadBlob rfl (by decide),
   (getUser_session_checks 5 (some exGoodBlob) 200
       exStoreMember).2.2.2.2.1 exGoodBlob exPayload ⟨some 1⟩ 1 rfl
     (by decide) rfl rfl (by decide),
   (getUser_session_checks 5 (some exGoodBlob) 50
       exStoreMember).2.2.2.2.2 exUser (by decide)⟩

/-- C9: for every caller whose user row exists and who has exactly one
team membership (a caller who "belongs to a team"), the existing-membership
check of inviteTeamMember — which filters teamMembers by the caller's own
userId and teamId — matches that very membership, so the action returns
"User already a member.", inserts no invitation row and leaves the store
unchanged; the invitation-creating success path is unreachable for such
callers. -/
theorem inviteTeamMember_always_already_member (st : Store) (user : User)
    (email role : String) (mem : TeamMemberRow)
    (hu : st.users.filter (fun r => r.id == user.id) = [user])
    (hm : st.teamMembers.filter (fun m => m.userId == user.id) = [mem])
    (h0 : mem.teamId ≠ 0) :
    inviteTeamMember st user email role =
      ⟨st, .err "User already a member.", none, false⟩ := by
  have hct : callerTeamId st user.id = some mem.teamId := by
    unfold callerTeamId getUserWithTeam
    rw [hu, hm]
    simp [singleQ, limitSingle, h0]
  have hdf : st.teamMembers.filter
      (fun m => m.teamId == mem.teamId && m.userId == user.id) = [mem] := by
    have hsplit : st.teamMembers.filter
        (fun m => m.teamId == mem.teamId && m.userId == user.id) =
        (st.teamMembers.filter (fun m => m.userId == user.id)).filter
          (fun m => m.teamId == mem.teamId) := by
      rw [List.filter_filter]
    rw [hsplit, hm]
    simp
  simp [inviteTeamMember, hct, hdf, singleQ]

theorem inviteTeamMember_always_already_member_witness :
    exStoreMember.users.filter (fun r => r.id == exUser.id) = [exUser] ∧
    exStoreMember.teamMembers.filter
      (fun m => m.userId == exUser.id) = [exMember] ∧
    inviteTeamMember exStoreMember exUser "b@x.com" "member" =
      ⟨exStoreMember, .err "User already a member.", none, false⟩ :=
  ⟨by decide, by decide,
   inviteTeamMember_always_already_member exStoreMember exUser "b@x.com"
     "member" exMember (by decide) (by decide) (by decide)⟩

/-- C10: removeTeamMember never touches a membership row of a team other
than the caller's own — the delete filters by both the submitted memberId
and the caller's teamId, so every row whose teamId differs survives; and a
caller without a team gets "Not part of a team." with the store unchanged
(no delete at all). -/
theorem removeTeamMember_frame (st : Store) (user : User) (memberId : Int) :
    (callerTeamId st user.id = none →
      removeTeamMember st user memberId =
        ⟨st, .err "Not part of a team.", none, false⟩) ∧
    (∀ tid, callerTeamId st user.id = some tid →
      ∀ m ∈ st.teamMembers, m.teamId ≠ tid →
        m ∈ (removeTeamMember st user memberId).store.teamMembers) := by
  constructor
  · intro h
    simp [removeTeamMember, h]
  · intro tid h m hm hne
    unfold removeTeamMember
    rw [h]
    dsimp only
    obtain ⟨logs, hla⟩ := logActivity_shape
      { st with teamMembers := st.teamMembers.filter (fun m =>
          !(m.id == memberId && m.teamId == tid)) }
      (some tid) user.id ActivityType.REMOVE_TEAM_MEMBER
    rw [hla]
    dsimp only
    apply List.mem_filter.mpr
    refine ⟨hm, ?_⟩
    simp [hne]

theorem removeTeamMember_frame_witness :
    (callerTeamId exStoreNoTeam exUser.id = none ∧
      removeTeamMember exStoreNoTeam exUser 1 =
        ⟨exStoreNoTeam, .err "Not part of a team.", none, false⟩) ∧
    (callerTeamId exStoreTwoTeams exUser.id = some 7 ∧
      exMemberOther ∈
        (removeTeamMember exStoreTwoTeams exUser 2).store.teamMembers) :=
  ⟨⟨by decide,
    (removeTeamMember_frame exStoreNoTeam exUser 1).1 (by decide)⟩,
   ⟨by decide,
    (removeTeamMember_frame exStoreTwoTeams exUser 2).2 7 (by decide)
      exMemberOther (by decide) (by decide)⟩⟩

end App
